import Mathlib

/-!
Shallow embedding of the StateMachines repository (Python) in Lean 4.

The embedding follows src/src/csv_parser.py, src/src/state_machine.py,
src/src/string_builder.py and src/src/io.py.  A Python `StringBuilder`
is modelled as a `List Char` (append at the end, `str(builder)` is
`String.mk`), the character stream as a `List Char`, and exceptions as
the `Except String` monad carrying the exception message.
-/

/-- States enumeration of `CsvParser` (csv_parser.py, class States). -/
inductive States where
  | BEGIN
  | IN_FIELD
  | QUOTE_IN_FIELD
  | END_OF_FIELD
  | END_OF_RECORD
  | END
  deriving DecidableEq, Repr

/-- States enumeration of `GumballMachine` (gumball_machine.py, class States). -/
inductive GumballStates where
  | SOLD_OUT
  | NO_COIN
  | HAS_COIN
  deriving DecidableEq, Repr

/-- Python enum member name (`to_state.name` in state_machine.py). -/
def States.name : States → String
  | .BEGIN => "BEGIN"
  | .IN_FIELD => "IN_FIELD"
  | .QUOTE_IN_FIELD => "QUOTE_IN_FIELD"
  | .END_OF_FIELD => "END_OF_FIELD"
  | .END_OF_RECORD => "END_OF_RECORD"
  | .END => "END"

/-- Python enum member name for the gumball machine states. -/
def GumballStates.name : GumballStates → String
  | .SOLD_OUT => "SOLD_OUT"
  | .NO_COIN => "NO_COIN"
  | .HAS_COIN => "HAS_COIN"

/-- Universe of enum values that can be passed to `transition` in this
repository: members of `csv_parser.States` or of `gumball_machine.States`.
This models the dynamically typed `to_state` argument of
`StateMachineBase.transition`, whose `isinstance` check distinguishes
members of the declared enumeration from other values. -/
inductive EnumValue where
  | csv (s : States)
  | gumball (s : GumballStates)
  deriving DecidableEq, Repr

/-- Python `.name` attribute of an enum value. -/
def EnumValue.name : EnumValue → String
  | .csv s => s.name
  | .gumball s => s.name

/-- Result of `isinstance(to_state, CsvParser.states)`: true exactly when the
value is a member of the `States` enumeration declared on `CsvParser`. -/
def EnumValue.isStatesMember : EnumValue → Bool
  | .csv _ => true
  | .gumball _ => false

/-- Instance state of `CsvParser` (slots `state` from `StateMachineBase`
plus `fields`, `fields_per_record`, `doublequotes_in_field`). -/
structure CsvParser where
  state : States
  fields : List String
  fields_per_record : Option Nat
  doublequotes_in_field : Nat
  deriving DecidableEq, Repr

/-- Embedding of `StateMachineBase.transition` specialized to `CsvParser`
and to arguments that are members of the declared `States` enumeration
(every call site inside csv_parser.py passes a member, so the
`isinstance` check succeeds).  The default hooks only write to a logger
and mutate no instance field, so the observable effect is exactly the
update of `state`. -/
def CsvParser.transition (m : CsvParser) (to_state : States) : CsvParser :=
  { m with state := to_state }

/-- Embedding of `StateMachineBase.transition` on `CsvParser` in full
generality: the argument is an arbitrary enum value and the pre/post
hooks are explicit functions over an observer value `obs` (modelling the
side effects of `before_transition` and `after_transition`).  The
`isinstance(to_state, self.__class__.states)` check fails with a
`TypeError` for values outside the declared enumeration; otherwise the
pre hook runs on the old state, `state` is updated, and the post hook
runs (state_machine.py, lines 76 to 91). -/
def StateMachineBase.transitionFull {α : Type} (m : CsvParser) (to_state : EnumValue)
    (before_transition after_transition : States → States → α → α) (obs : α) :
    Except String (CsvParser × α) :=
  match to_state with
  | .csv s =>
      let from_state := m.state
      let obs1 := before_transition from_state s obs
      let m1 := { m with state := s }
      let obs2 := after_transition from_state s obs1
      .ok (m1, obs2)
  | v => .error (v.name ++ " is not a valid state in CsvParser")

/-- Constructor state of a fresh `CsvParser`: the initial state is the first
member of the enumeration (`StateMachineMeta` default), and the three own
slots are the empty field list, `None` and `0`. -/
def CsvParser.init : CsvParser :=
  { state := States.BEGIN
    fields := []
    fields_per_record := none
    doublequotes_in_field := 0 }

/-- Embedding of the property `CsvParser.record_number`: one-based record
number, `1` while `fields_per_record` is unset, otherwise
`math.ceil(len(self.fields) / self.fields_per_record)`.  Whenever
`fields_per_record` is set by the code it is positive, because
`end_record` first appends a field via `end_field`. -/
def CsvParser.record_number (m : CsvParser) : Nat :=
  match m.fields_per_record with
  | none => 1
  | some fpr => (m.fields.length + fpr - 1) / fpr

/-- Embedding of the property `CsvParser.has_unbalanced_doublequotes`. -/
def CsvParser.has_unbalanced_doublequotes (m : CsvParser) : Bool :=
  m.doublequotes_in_field % 2 = 1

/-- Embedding of `CsvParser.end_field` (csv_parser.py, lines 116 to 130).
Returns the updated parser and the cleared builder. -/
def CsvParser.end_field (m : CsvParser) (builder : List Char) :
    Except String (CsvParser × List Char) := do
  let m ←
    if m.doublequotes_in_field > 0 then
      if m.has_unbalanced_doublequotes then
        throw ("Field " ++ toString (m.fields.length + 1) ++ " in Record " ++
          toString m.record_number ++ " has unbalanced double-quotes")
      else if m.state ≠ States.QUOTE_IN_FIELD then
        throw ("Field " ++ toString (m.fields.length + 1) ++ " in Record " ++
          toString m.record_number ++ " must end with a double-quote")
      else
        pure { m with doublequotes_in_field := 0 }
    else
      pure m
  let m := { m with fields := m.fields ++ [String.mk builder] }
  pure (m.transition States.END_OF_FIELD, ([] : List Char))

/-- Embedding of `CsvParser.check_for_invalid_number_of_fields`
(csv_parser.py, lines 132 to 144).  The method reads
`self.fields_per_record`; it is only called when that slot is set, and a
`None` there would raise a `TypeError` in Python, modelled by the first
branch. -/
def CsvParser.check_for_invalid_number_of_fields (m : CsvParser) :
    Except String Unit :=
  match m.fields_per_record with
  | none => .error "TypeError: unsupported operand for None"
  | some fpr =>
      let fields_discrepancy := m.fields.length % fpr
      if fields_discrepancy = 0 then .ok ()
      else
        .error ("Record " ++ toString m.record_number ++ " has " ++
          toString fields_discrepancy ++ " fields but should have " ++ toString fpr)

/-- Embedding of `CsvParser.end_record` (csv_parser.py, lines 146 to 160). -/
def CsvParser.end_record (m : CsvParser) (builder : List Char) :
    Except String (CsvParser × List Char) := do
  let (m, builder) ← m.end_field builder
  let m := m.transition States.END_OF_RECORD
  match m.fields_per_record with
  | none => pure ({ m with fields_per_record := some m.fields.length }, builder)
  | some _ => do
      m.check_for_invalid_number_of_fields
      pure (m, builder)

/-- Embedding of `CsvParser.process_char` (csv_parser.py, lines 162 to 197). -/
def CsvParser.process_char (m : CsvParser) (ch : Char) (builder : List Char) :
    Except String (CsvParser × List Char) :=
  let builder :=
    if m.state = States.QUOTE_IN_FIELD ∧ m.has_unbalanced_doublequotes then
      builder ++ ['"']
    else builder
  if ch = ',' ∧ ¬ m.has_unbalanced_doublequotes then
    m.end_field builder
  else if ch = '\n' then
    if m.has_unbalanced_doublequotes then
      .ok (m, builder ++ [ch])
    else
      m.end_record builder
  else if m.state = States.QUOTE_IN_FIELD ∧ ¬ m.has_unbalanced_doublequotes then
    .error ("Unexpected character " ++ toString ch ++
      " found after a double-quote in field " ++ toString (m.fields.length + 1) ++
      " of record " ++ toString m.record_number)
  else
    let m := if m.state ≠ States.IN_FIELD then m.transition States.IN_FIELD else m
    .ok (m, builder ++ [ch])

/-- Embedding of `CsvParser.process_doublequote` (csv_parser.py, lines 199
to 230). -/
def CsvParser.process_doublequote (m : CsvParser) (builder : List Char) :
    Except String (CsvParser × List Char) :=
  match m.state with
  | States.BEGIN | States.END_OF_FIELD | States.END_OF_RECORD =>
      let m := { m with doublequotes_in_field := 1 }
      .ok (m.transition States.IN_FIELD, builder)
  | States.IN_FIELD =>
      if m.doublequotes_in_field = 0 then
        .error ("Unexpected double-quote found in record " ++
          toString m.record_number ++ " at position " ++
          toString (builder.length + 1) ++ " of field " ++
          toString (m.fields.length + 1))
      else
        let m := { m with doublequotes_in_field := m.doublequotes_in_field + 1 }
        .ok (m.transition States.QUOTE_IN_FIELD, builder)
  | States.QUOTE_IN_FIELD =>
      let m := { m with doublequotes_in_field := m.doublequotes_in_field + 1 }
      let builder :=
        if m.has_unbalanced_doublequotes then builder ++ ['"'] else builder
      .ok (m.transition States.IN_FIELD, builder)
  | other =>
      .error ("Unexpected state States." ++ other.name)

/-- One iteration of the loop body in `CsvParser.parse`: the `match` on the
current character dispatches a double-quote to `process_doublequote` and
every other character to `process_char`. -/
def CsvParser.step (m : CsvParser) (c : Char) (builder : List Char) :
    Except String (CsvParser × List Char) :=
  if c = '"' then m.process_doublequote builder else m.process_char c builder

/-- The character loop of `CsvParser.parse` over the sequence produced by
`each_character_of` (io.py): one `step` per character, threading the
parser and the builder. -/
def CsvParser.process_chars :
    CsvParser → List Char → List Char → Except String (CsvParser × List Char)
  | m, builder, [] => .ok (m, builder)
  | m, builder, c :: rest => do
      let (m, builder) ← m.step c builder
      CsvParser.process_chars m builder rest

/-- Embedding of `CsvParser.parse` (csv_parser.py, lines 232 to 251): run
the character loop, force a record termination when the machine is not in
`END_OF_RECORD`, then transition to `END`.  The builder is released by
the `with` block on exit; the parser instance is the result. -/
def CsvParser.parse (m : CsvParser) (read_from : List Char) :
    Except String CsvParser := do
  let (m, builder) ← CsvParser.process_chars m [] read_from
  let (m, _builder) ←
    if m.state ≠ States.END_OF_RECORD then m.end_record builder
    else pure (m, builder)
  pure (m.transition States.END)

/-- Parsing a string with a freshly constructed parser. -/
def parseInput (s : String) : Except String CsvParser :=
  CsvParser.init.parse s.toList

/-- Embedding of `CsvParser.__len__`: record count, `0` when no fields are
stored. -/
def CsvParser.len (m : CsvParser) : Nat :=
  if m.fields.length = 0 then 0 else m.record_number

/-- Embedding of `CsvParser.__getitem__` (csv_parser.py, lines 49 to 83)
for integer keys.  `math.trunc(field_count / fields_per_record)` on
non-negative integers is the integer quotient; Python slicing
`fields[start : start + fields_per_record]` is `drop` then `take`.  The
method reads `self.fields_per_record`, which is `None` before a record
has completed; comparing or multiplying `None` raises a `TypeError`,
modelled by the first branch. -/
def CsvParser.getitem (m : CsvParser) (key : Int) : Except String (List String) :=
  match m.fields_per_record with
  | none => .error "TypeError: unsupported operand for None"
  | some fpr =>
      let field_count := m.fields.length
      if key < 0 then
        if field_count ≤ fpr then
          .error "record index out of range"
        else
          let factor : Int := ((field_count / fpr : Nat) : Int) + key
          if factor < 0 then
            .error "record index out of range"
          else
            .ok ((m.fields.drop (factor.toNat * fpr)).take fpr)
      else
        let start_index := key.toNat * fpr
        if field_count ≤ start_index then
          .error "record index out of range"
        else
          .ok ((m.fields.drop start_index).take fpr)

/-! Helper lemmas about the `Except String` monad used by the embedding. -/

/-- Computation rule for `pure` in `Except String`. -/
@[simp] theorem except_pure_eq {α : Type} (a : α) :
    (pure a : Except String α) = Except.ok a := rfl

/-- Computation rule for `throw` in `Except String`. -/
@[simp] theorem except_throw_eq {α : Type} (e : String) :
    (throw e : Except String α) = Except.error e := rfl

/-- Computation rule for `bind` on a success value. -/
@[simp] theorem except_bind_ok {α β : Type} (a : α) (f : α → Except String β) :
    (Except.ok a >>= f) = f a := rfl

/-- Computation rule for `bind` on an error value. -/
@[simp] theorem except_bind_error {α β : Type} (e : String) (f : α → Except String β) :
    ((Except.error e : Except String α) >>= f) = Except.error e := rfl

/-- C9: parsing a completely empty input stream succeeds and produces exactly
one record consisting of a single empty-string field, sets
`fields_per_record` to `1`, leaves the machine in `END`, and the record
count and record `0` reflect that single record. -/
theorem c9_empty_input :
    parseInput "" =
      .ok { state := States.END, fields := [""], fields_per_record := some 1,
            doublequotes_in_field := 0 }
    ∧ CsvParser.len
        { state := States.END, fields := [""], fields_per_record := some 1,
          doublequotes_in_field := 0 } = 1
    ∧ CsvParser.getitem
        { state := States.END, fields := [""], fields_per_record := some 1,
          doublequotes_in_field := 0 } 0 = .ok [""] :=
  ⟨rfl, rfl, rfl⟩

/-- C1: on input `a,b\nc,d,e,f\n` the second completed record has 4 fields
while `fields_per_record` is 2, yet `parse` succeeds, because
`check_for_invalid_number_of_fields` only tests the cumulative field
count modulo `fields_per_record` (6 mod 2 = 0). -/
theorem c1_modulo_check_accepts_mismatched_record :
    parseInput "a,b\nc,d,e,f\n" =
      .ok { state := States.END, fields := ["a", "b", "c", "d", "e", "f"],
            fields_per_record := some 2, doublequotes_in_field := 0 } := rfl

/-- C2 counterexample: on input `a,b\nc,d,e\n` the parse error message is
`Record 3 has 1 fields but should have 2`, which is not the message
`Record 2 has 3 fields but should have 2` asserted by the claim. -/
theorem c2_message_counterexample :
    parseInput "a,b\nc,d,e\n" = .error "Record 3 has 1 fields but should have 2"
    ∧ ("Record 3 has 1 fields but should have 2" : String) ≠
        "Record 2 has 3 fields but should have 2" :=
  ⟨rfl, by decide⟩

/-- C2 amended: on input `a,b\nc,d,e\n` parsing fails with a
field-count-mismatch `CsvParseException` whose message reports the
record number `3` (the ceiling of the cumulative field count 5 over
`fields_per_record` 2) and the field count `1` (the cumulative field
count modulo `fields_per_record`), in the form
`Record <n> has <k> fields but should have <expected>`. -/
theorem c2_amended_message :
    parseInput "a,b\nc,d,e\n" = .error "Record 3 has 1 fields but should have 2" := rfl

/-- C4 counterexample: after parsing `a,b\nc,d\n` the parser instance holds
the fields of both records simultaneously in its internal `fields` list
(4 stored fields, more than the 2 fields of one record), so the parser
does not hold at most one record of fields at a time. -/
theorem c4_all_fields_retained_counterexample :
    parseInput "a,b\nc,d\n" =
      .ok { state := States.END, fields := ["a", "b", "c", "d"],
            fields_per_record := some 2, doublequotes_in_field := 0 }
    ∧ 2 <
      (CsvParser.mk States.END ["a", "b", "c", "d"] (some 2) 0).fields.length :=
  ⟨rfl, by decide⟩

/-- C8: for every machine instance, target value and hook pair,
`transition` fails if and only if the target is not a member of the
declared `States` enumeration; on success the pre-transition hook is
invoked with the pair of old and new state before the state update, the
current state is set to the target, the post-transition hook is invoked
with the same pair afterwards, and no other instance field changes. -/
theorem c8_transition_spec {α : Type} (m : CsvParser) (v : EnumValue)
    (before_transition after_transition : States → States → α → α) (obs : α) :
    ((∃ e, StateMachineBase.transitionFull m v before_transition after_transition obs =
        .error e) ↔ v.isStatesMember = false)
    ∧ (∀ s, v = EnumValue.csv s →
        StateMachineBase.transitionFull m v before_transition after_transition obs =
          .ok ({ state := s, fields := m.fields,
                 fields_per_record := m.fields_per_record,
                 doublequotes_in_field := m.doublequotes_in_field },
               after_transition m.state s (before_transition m.state s obs))) := by
  constructor
  · cases v <;> simp [StateMachineBase.transitionFull, EnumValue.isStatesMember]
  · rintro s rfl
    rfl

/-- Witness for C8 at a concrete input: transitioning a fresh parser to
`IN_FIELD` with a recording pre hook and an identity post hook succeeds,
records the from/to pair, and preserves the other fields. -/
theorem c8_transition_spec_witness :
    StateMachineBase.transitionFull CsvParser.init (EnumValue.csv States.IN_FIELD)
      (fun f t l => (f, t) :: l) (fun _ _ l => l)
      ([] : List (States × States)) =
      .ok ({ state := States.IN_FIELD, fields := [], fields_per_record := none,
             doublequotes_in_field := 0 },
           [(States.BEGIN, States.IN_FIELD)]) :=
  (c8_transition_spec CsvParser.init (EnumValue.csv States.IN_FIELD)
    (fun f t l => (f, t) :: l) (fun _ _ l => l) []).2 States.IN_FIELD rfl

/-- C10: indexing behaviour of `__getitem__` after a successful parse,
where the stored field count is `n * fpr` for `n` complete records.
With exactly one record every negative key raises `IndexError` while key
`0` returns the record; with `n ≥ 2` records, `-k` (for `1 ≤ k ≤ n`)
returns the same field list as `n - k`, and keys at or beyond `n` or
below `-n` raise `IndexError`. -/
theorem c10_getitem_indexing (m : CsvParser) (n fpr : Nat)
    (hf : m.fields_per_record = some fpr) (hfpr : 1 ≤ fpr)
    (hlen : m.fields.length = n * fpr) :
    (n = 1 →
      (∀ key : Int, key < 0 → m.getitem key = .error "record index out of range")
      ∧ m.getitem 0 = .ok m.fields)
    ∧ (2 ≤ n →
      (∀ k : Nat, 1 ≤ k → k ≤ n →
        m.getitem (-(k : Int)) = m.getitem ((n - k : Nat) : Int)
        ∧ m.getitem (-(k : Int)) =
            .ok ((m.fields.drop ((n - k) * fpr)).take fpr))
      ∧ (∀ key : Int, (n : Int) ≤ key →
          m.getitem key = .error "record index out of range")
      ∧ (∀ key : Int, key < -(n : Int) →
          m.getitem key = .error "record index out of range")) := by
  have hpos : 0 < fpr := hfpr
  have hdiv : m.fields.length / fpr = n := by
    rw [hlen, Nat.mul_div_cancel _ hpos]
  constructor
  · rintro rfl
    constructor
    · intro key hkey
      simp only [CsvParser.getitem, hf]
      rw [if_pos hkey, if_pos (by omega : m.fields.length ≤ fpr)]
    · simp only [CsvParser.getitem, hf]
      rw [if_neg (by omega : ¬ (0 : Int) < 0),
        if_neg (by rw [Int.toNat_zero, Nat.zero_mul]; omega :
          ¬ m.fields.length ≤ (0 : Int).toNat * fpr)]
      simp only [Int.toNat_zero, Nat.zero_mul, List.drop_zero]
      rw [List.take_of_length_le (by omega)]
  · intro hn
    refine ⟨?_, ?_, ?_⟩
    · intro k hk1 hkn
      have hneg : -(k : Int) < 0 := by omega
      have hlt : ¬ m.fields.length ≤ fpr := by
        have : 2 * fpr ≤ n * fpr := Nat.mul_le_mul_right fpr hn
        omega
      have hfac : ¬ (((m.fields.length / fpr : Nat) : Int) + -(k : Int) < 0) := by
        rw [hdiv]; omega
      have htn : (((m.fields.length / fpr : Nat) : Int) + -(k : Int)).toNat = n - k := by
        rw [hdiv]; omega
      have hnk : ¬ (((n - k : Nat) : Int) < 0) := by omega
      have hnk2 : ((n - k : Nat) : Int).toNat = n - k := by omega
      have hstart : ¬ m.fields.length ≤ (n - k) * fpr := by
        have : (n - k) * fpr < n * fpr :=
          Nat.mul_lt_mul_of_lt_of_le (by omega) (le_refl fpr) hpos
        omega
      constructor
      · simp only [CsvParser.getitem, hf]
        rw [if_pos hneg, if_neg hlt, if_neg hfac, htn, if_neg hnk, hnk2,
          if_neg hstart]
      · simp only [CsvParser.getitem, hf]
        rw [if_pos hneg, if_neg hlt, if_neg hfac, htn]
    · intro key hkey
      have hnotneg : ¬ key < 0 := by omega
      have hge : n ≤ key.toNat := by omega
      have hstart : m.fields.length ≤ key.toNat * fpr := by
        have : n * fpr ≤ key.toNat * fpr := Nat.mul_le_mul_right fpr hge
        omega
      simp only [CsvParser.getitem, hf]
      rw [if_neg hnotneg, if_pos hstart]
    · intro key hkey
      have hneg : key < 0 := by omega
      have hlt : ¬ m.fields.length ≤ fpr := by
        have : 2 * fpr ≤ n * fpr := Nat.mul_le_mul_right fpr hn
        omega
      have hfac : ((m.fields.length / fpr : Nat) : Int) + key < 0 := by
        rw [hdiv]; omega
      simp only [CsvParser.getitem, hf]
      rw [if_pos hneg, if_neg hlt, if_pos hfac]

/-- Witness for C10 at a concrete parser: two records of two fields each;
record `-1` equals record `1`, it is the last two fields, and key `2` is
out of range. -/
theorem c10_getitem_indexing_witness :
    CsvParser.getitem
        (CsvParser.mk States.END ["a", "b", "c", "d"] (some 2) 0) (-1) =
      CsvParser.getitem
        (CsvParser.mk States.END ["a", "b", "c", "d"] (some 2) 0) ((2 - 1 : Nat) : Int)
    ∧ CsvParser.getitem
        (CsvParser.mk States.END ["a", "b", "c", "d"] (some 2) 0) 2 =
      .error "record index out of range" := by
  have h := (c10_getitem_indexing
    (CsvParser.mk States.END ["a", "b", "c", "d"] (some 2) 0) 2 2
    rfl (by decide) (by decide)).2 (by decide)
  exact ⟨by simpa using (h.1 1 (by decide) (by decide)).1,
    h.2.1 2 (by decide)⟩

/-- C5: whenever the per-field double-quote counter is odd, processing a
newline appends it literally to the builder (after the deferred quote if
the state is `QUOTE_IN_FIELD`) and leaves the parser state untouched
instead of terminating the record; consequently `a,"line1\nline2",c\n`
parses to a single record whose second field embeds a newline. -/
theorem c5_newline_unbalanced :
    (∀ (m : CsvParser) (builder : List Char),
      m.has_unbalanced_doublequotes = true →
      m.process_char '\n' builder =
        .ok (m, (if m.state = States.QUOTE_IN_FIELD then builder ++ ['"']
          else builder) ++ ['\n']))
    ∧ parseInput "a,\"line1\nline2\",c\n" =
        .ok { state := States.END, fields := ["a", "line1\nline2", "c"],
              fields_per_record := some 3, doublequotes_in_field := 0 }
    ∧ '\n' ∈ ("line1\nline2" : String).toList := by
  refine ⟨?_, rfl, by decide⟩
  intro m builder h
  by_cases hst : m.state = States.QUOTE_IN_FIELD <;>
    simp [CsvParser.process_char, h, hst]

/-- Witness for C5 at a concrete state: in `IN_FIELD` with one unbalanced
quote, a newline is appended to the builder and nothing else changes. -/
theorem c5_newline_unbalanced_witness :
    CsvParser.process_char
        (CsvParser.mk States.IN_FIELD [] none 1) '\n' [] =
      .ok (CsvParser.mk States.IN_FIELD [] none 1, ['\n']) := by
  have h := c5_newline_unbalanced.1 (CsvParser.mk States.IN_FIELD [] none 1) []
    (by decide)
  exact h

/-- C6: a double-quote processed in `IN_FIELD` with the quote counter at
zero raises a `CsvParseException` naming the current field and record;
with a nonzero counter it increments the counter and transitions to
`QUOTE_IN_FIELD`; a whole-input example is `ab"c\n`, which fails. -/
theorem c6_quote_mid_field (m : CsvParser) (builder : List Char)
    (h : m.state = States.IN_FIELD) :
    (m.doublequotes_in_field = 0 →
      m.process_doublequote builder =
        .error ("Unexpected double-quote found in record " ++
          toString m.record_number ++ " at position " ++
          toString (builder.length + 1) ++ " of field " ++
          toString (m.fields.length + 1)))
    ∧ (m.doublequotes_in_field ≠ 0 →
      m.process_doublequote builder =
        .ok (CsvParser.transition
          { m with doublequotes_in_field := m.doublequotes_in_field + 1 }
          States.QUOTE_IN_FIELD, builder))
    ∧ parseInput "ab\"c\n" =
        .error "Unexpected double-quote found in record 1 at position 3 of field 1" := by
  refine ⟨?_, ?_, rfl⟩
  · intro h0
    simp [CsvParser.process_doublequote, h, h0]
  · intro h0
    simp [CsvParser.process_doublequote, h, h0, CsvParser.transition]

/-- Witness for C6 at a concrete state: a quote in `IN_FIELD` with counter
zero produces the exception message, and with counter one it moves to
`QUOTE_IN_FIELD`. -/
theorem c6_quote_mid_field_witness :
    CsvParser.process_doublequote (CsvParser.mk States.IN_FIELD [] none 0) [] =
      .error "Unexpected double-quote found in record 1 at position 1 of field 1"
    ∧ CsvParser.process_doublequote (CsvParser.mk States.IN_FIELD [] none 1) [] =
      .ok (CsvParser.mk States.QUOTE_IN_FIELD [] none 2, []) :=
  ⟨(c6_quote_mid_field (CsvParser.mk States.IN_FIELD [] none 0) [] rfl).1 rfl,
   (c6_quote_mid_field (CsvParser.mk States.IN_FIELD [] none 1) [] rfl).2.1
     (by decide)⟩

/-- Helper: a successful `end_field` appends exactly the materialized builder
content as the next field. -/
theorem end_field_ok_fields (m : CsvParser) (b : List Char) (p : CsvParser)
    (b2 : List Char) (h : m.end_field b = .ok (p, b2)) :
    p.fields = m.fields ++ [String.mk b] := by
  unfold CsvParser.end_field at h
  split at h
  · split at h
    · simp at h
    · split at h
      · simp at h
      · simp only [except_pure_eq, except_bind_ok] at h
        simp only [except_pure_eq, Except.ok.injEq, Prod.mk.injEq] at h
        obtain ⟨h1, _⟩ := h
        rw [← h1]
        rfl
  · simp only [except_pure_eq, except_bind_ok] at h
    simp only [except_pure_eq, Except.ok.injEq, Prod.mk.injEq] at h
    obtain ⟨h1, _⟩ := h
    rw [← h1]
    rfl

/-- Helper: a successful `end_record` appends exactly the materialized
builder content as the final field of the record. -/
theorem end_record_ok_fields (m : CsvParser) (b : List Char) (p : CsvParser)
    (b2 : List Char) (h : m.end_record b = .ok (p, b2)) :
    p.fields = m.fields ++ [String.mk b] := by
  unfold CsvParser.end_record at h
  cases hf : m.end_field b with
  | error e => rw [hf] at h; simp at h
  | ok q =>
      obtain ⟨q1, q2⟩ := q
      rw [hf] at h
      simp only [except_bind_ok] at h
      have hfields := end_field_ok_fields m b q1 q2 hf
      split at h
      · simp only [except_pure_eq, Except.ok.injEq, Prod.mk.injEq] at h
        obtain ⟨h1, _⟩ := h
        rw [← h1]
        simpa [CsvParser.transition] using hfields
      · cases hc : (CsvParser.transition q1 States.END_OF_RECORD).check_for_invalid_number_of_fields with
        | error e => rw [hc] at h; simp at h
        | ok u =>
            rw [hc] at h
            simp only [except_bind_ok, except_pure_eq, Except.ok.injEq,
              Prod.mk.injEq] at h
            obtain ⟨h1, _⟩ := h
            rw [← h1]
            simpa [CsvParser.transition] using hfields

/-- Helper: a double-quote character dispatches to `process_doublequote`,
any other character to `process_char`. -/
theorem step_nonquote (m : CsvParser) (c : Char) (b : List Char)
    (hc : c ≠ '"') : m.step c b = m.process_char c b := by
  simp [CsvParser.step, hc]

/-- Helper: inside a quoted field (state `IN_FIELD`, odd quote counter),
every non-quote character, including commas and newlines, is appended
literally and the parser state is unchanged. -/
theorem process_char_plain (m : CsvParser) (c : Char) (b : List Char)
    (hst : m.state = States.IN_FIELD)
    (hodd : m.doublequotes_in_field % 2 = 1) (hc : c ≠ '"') :
    m.process_char c b = .ok (m, b ++ [c]) := by
  have hub : m.has_unbalanced_doublequotes = true := by
    simp [CsvParser.has_unbalanced_doublequotes, hodd]
  by_cases hn : c = '\n'
  · subst hn
    simp [CsvParser.process_char, hst, hub]
  · simp [CsvParser.process_char, hst, hub, hn]

/-- Helper: the character loop on a run of non-quote characters inside a
quoted field appends the run to the builder and changes nothing else. -/
theorem process_chars_plain (m : CsvParser) (b : List Char) (cs : List Char)
    (hst : m.state = States.IN_FIELD)
    (hodd : m.doublequotes_in_field % 2 = 1)
    (hcs : ∀ c ∈ cs, c ≠ '"') :
    CsvParser.process_chars m b cs = .ok (m, b ++ cs) := by
  induction cs generalizing b with
  | nil => simp [CsvParser.process_chars]
  | cons c rest ih =>
      have hc : c ≠ '"' := hcs c (by simp)
      have hstep : m.step c b = .ok (m, b ++ [c]) := by
        rw [step_nonquote m c b hc]
        exact process_char_plain m c b hst hodd hc
      have hrest : ∀ x ∈ rest, x ≠ '"' := fun x hx => hcs x (by simp [hx])
      simp only [CsvParser.process_chars, hstep, except_bind_ok]
      rw [ih (b ++ [c]) hrest]
      simp

/-- Helper: the character loop splits over list append. -/
theorem process_chars_append (m : CsvParser) (b : List Char) (xs ys : List Char) :
    CsvParser.process_chars m b (xs ++ ys) =
      (CsvParser.process_chars m b xs) >>= fun p =>
        CsvParser.process_chars p.1 p.2 ys := by
  induction xs generalizing m b with
  | nil => simp [CsvParser.process_chars]
  | cons c rest ih =>
      cases hs : m.step c b with
      | error e =>
          simp [CsvParser.process_chars, hs, except_bind_error]
      | ok q =>
          obtain ⟨m2, b2⟩ := q
          simp only [List.cons_append, CsvParser.process_chars, hs,
            except_bind_ok]
          exact ih m2 b2

/-- C3: a quoted field whose content contains one two-double-quote escape
pair parses to the content with a single literal double-quote in its
place: for any quote-free runs `s1` and `s2`, the input
`"s1""s2"` followed by a newline yields exactly one record whose single
field is `s1`, a literal quote, then `s2`; in particular the input
`a,"He said ""hi""",c\n` yields the single record
`["a", "He said \"hi\"", "c"]`. -/
theorem c3_escape_pair (s1 s2 : List Char)
    (h1 : ∀ c ∈ s1, c ≠ '"') (h2 : ∀ c ∈ s2, c ≠ '"') :
    CsvParser.init.parse ('"' :: (s1 ++ '"' :: '"' :: (s2 ++ ['"', '\n']))) =
      .ok { state := States.END, fields := [String.mk (s1 ++ '"' :: s2)],
            fields_per_record := some 1, doublequotes_in_field := 0 }
    ∧ parseInput "a,\"He said \"\"hi\"\"\",c\n" =
        .ok { state := States.END, fields := ["a", "He said \"hi\"", "c"],
              fields_per_record := some 3, doublequotes_in_field := 0 } := by
  refine ⟨?_, rfl⟩
  have e1 : CsvParser.process_chars CsvParser.init []
      ('"' :: (s1 ++ '"' :: '"' :: (s2 ++ ['"', '\n']))) =
      CsvParser.process_chars (CsvParser.mk States.IN_FIELD [] none 1) []
        (s1 ++ '"' :: '"' :: (s2 ++ ['"', '\n'])) := rfl
  have e2 : ∀ b : List Char,
      CsvParser.process_chars (CsvParser.mk States.IN_FIELD [] none 1) b
        ('"' :: '"' :: (s2 ++ ['"', '\n'])) =
      CsvParser.process_chars (CsvParser.mk States.IN_FIELD [] none 3)
        (b ++ ['"']) (s2 ++ ['"', '\n']) := fun b => rfl
  have e3 : ∀ b : List Char,
      CsvParser.process_chars (CsvParser.mk States.IN_FIELD [] none 3) b
        ['"', '\n'] =
      .ok (CsvParser.mk States.END_OF_RECORD [String.mk b] (some 1) 0, []) :=
    fun b => rfl
  have hkey : CsvParser.process_chars CsvParser.init []
      ('"' :: (s1 ++ '"' :: '"' :: (s2 ++ ['"', '\n']))) =
      .ok (CsvParser.mk States.END_OF_RECORD
        [String.mk (s1 ++ '"' :: s2)] (some 1) 0, []) := by
    rw [e1, process_chars_append,
      process_chars_plain (CsvParser.mk States.IN_FIELD [] none 1) [] s1 rfl rfl h1]
    simp only [except_bind_ok, List.nil_append]
    rw [e2 s1, process_chars_append,
      process_chars_plain (CsvParser.mk States.IN_FIELD [] none 3)
        (s1 ++ ['"']) s2 rfl rfl h2]
    simp only [except_bind_ok]
    rw [e3 ((s1 ++ ['"']) ++ s2)]
    simp [List.append_assoc]
  unfold CsvParser.parse
  rw [hkey]
  simp only [except_bind_ok]
  rw [if_neg (by simp)]
  rfl

/-- Witness for C3 at concrete runs: the input `"x""y"` followed by a
newline parses to the single one-field record `x"y`. -/
theorem c3_escape_pair_witness :
    CsvParser.init.parse ('"' :: (['x'] ++ '"' :: '"' :: (['y'] ++ ['"', '\n']))) =
      .ok { state := States.END, fields := [String.mk (['x'] ++ '"' :: ['y'])],
            fields_per_record := some 1, doublequotes_in_field := 0 } :=
  (c3_escape_pair ['x'] ['y'] (by decide) (by decide)).1

/-- Helper: every success of `process_doublequote` leaves the stored field
list unchanged (quote handling only touches the counter, the state and
the builder). -/
theorem process_doublequote_fields (m : CsvParser) (b : List Char)
    (p : CsvParser) (b2 : List Char)
    (h : m.process_doublequote b = .ok (p, b2)) : p.fields = m.fields := by
  obtain ⟨st, fs, fp, dq⟩ := m
  cases st
  case BEGIN =>
    simp only [CsvParser.process_doublequote] at h
    injection h with h3
    injection h3 with h4 h5
    rw [← h4]; rfl
  case END_OF_FIELD =>
    simp only [CsvParser.process_doublequote] at h
    injection h with h3
    injection h3 with h4 h5
    rw [← h4]; rfl
  case END_OF_RECORD =>
    simp only [CsvParser.process_doublequote] at h
    injection h with h3
    injection h3 with h4 h5
    rw [← h4]; rfl
  case IN_FIELD =>
    simp only [CsvParser.process_doublequote] at h
    split at h
    · exact absurd h (by simp)
    · injection h with h3
      injection h3 with h4 h5
      rw [← h4]; rfl
  case QUOTE_IN_FIELD =>
    simp only [CsvParser.process_doublequote] at h
    injection h with h3
    injection h3 with h4 h5
    rw [← h4]; rfl
  case END =>
    simp only [CsvParser.process_doublequote] at h
    exact absurd h (by simp)

/-- Helper: a successful processing step never removes stored fields; the
field list of the resulting parser extends the previous one. -/
theorem step_fields_mono (m : CsvParser) (c : Char) (b : List Char)
    (p : CsvParser) (b2 : List Char) (h : m.step c b = .ok (p, b2)) :
    ∃ t, p.fields = m.fields ++ t := by
  unfold CsvParser.step at h
  split at h
  · exact ⟨[], by rw [process_doublequote_fields m b p b2 h, List.append_nil]⟩
  · simp only [CsvParser.process_char] at h
    split at h
    · exact ⟨_, end_field_ok_fields _ _ _ _ h⟩
    · split at h
      · split at h
        · injection h with h3
          injection h3 with h4 h5
          exact ⟨[], by rw [← h4, List.append_nil]⟩
        · exact ⟨_, end_record_ok_fields _ _ _ _ h⟩
      · split at h
        · exact absurd h (by simp)
        · injection h with h3
          injection h3 with h4 h5
          refine ⟨[], ?_⟩
          rw [← h4, List.append_nil]
          split <;> rfl

/-- C4 amended: the parser accumulates every completed field in its single
internal `fields` list, which only ever grows during processing (each
successful step extends it); after parsing `a,b\nc,d\n` the instance
holds all four fields of both records at once, and records are only
reconstructed afterwards by indexing. -/
theorem c4_fields_accumulate :
    (∀ (m : CsvParser) (c : Char) (b : List Char) (p : CsvParser)
      (b2 : List Char), m.step c b = .ok (p, b2) →
        ∃ t, p.fields = m.fields ++ t)
    ∧ parseInput "a,b\nc,d\n" =
        .ok { state := States.END, fields := ["a", "b", "c", "d"],
              fields_per_record := some 2, doublequotes_in_field := 0 } :=
  ⟨step_fields_mono, rfl⟩

/-- Witness for C4 at a concrete step: processing `a` from the fresh parser
succeeds and the resulting field list extends the previous one. -/
theorem c4_fields_accumulate_witness :
    ∃ t, (CsvParser.mk States.IN_FIELD [] none 0).fields =
      CsvParser.init.fields ++ t :=
  c4_fields_accumulate.1 CsvParser.init 'a' []
    (CsvParser.mk States.IN_FIELD [] none 0) ['a'] rfl

/-- C7: whenever `parse` succeeds the terminal machine state is `END`; and
if the character loop left the machine outside `END_OF_RECORD` (no
trailing newline), `parse` forced a record termination whose final field
is exactly the materialized builder content, and the result is that
parser transitioned to `END`. -/
theorem c7_parse_epilogue (input : List Char) (m2 : CsvParser)
    (h : CsvParser.init.parse input = .ok m2) :
    m2.state = States.END
    ∧ (∀ s b, CsvParser.process_chars CsvParser.init [] input = .ok (s, b) →
        s.state ≠ States.END_OF_RECORD →
        ∃ s2 b2, s.end_record b = .ok (s2, b2)
          ∧ s2.fields = s.fields ++ [String.mk b]
          ∧ m2 = s2.transition States.END) := by
  unfold CsvParser.parse at h
  cases hp : CsvParser.process_chars CsvParser.init [] input with
  | error e => rw [hp] at h; exact absurd h (by simp)
  | ok q =>
      obtain ⟨s, b⟩ := q
      rw [hp] at h
      simp only [except_bind_ok] at h
      by_cases hs : s.state = States.END_OF_RECORD
      · rw [if_neg (by simp [hs])] at h
        simp only [except_pure_eq, except_bind_ok] at h
        injection h with h4
        constructor
        · rw [← h4]; rfl
        · intro s0 b0 h0 hne
          injection h0 with h5
          injection h5 with h6 h7
          rw [← h6] at hne
          exact absurd hs hne
      · rw [if_pos hs] at h
        cases he : s.end_record b with
        | error e => rw [he] at h; exact absurd h (by simp)
        | ok q2 =>
            obtain ⟨s2, b2⟩ := q2
            rw [he] at h
            simp only [except_bind_ok, except_pure_eq] at h
            injection h with h4
            constructor
            · rw [← h4]; rfl
            · intro s0 b0 h0 hne
              injection h0 with h5
              injection h5 with h6 h7
              refine ⟨s2, b2, ?_, ?_, ?_⟩
              · rw [← h6, ← h7]; exact he
              · rw [← h6, ← h7]; exact end_record_ok_fields s b s2 b2 he
              · rw [← h4]

/-- Witness for C7 at a concrete input: parsing `a` (no trailing newline)
succeeds; the character loop ends in `IN_FIELD`, a record termination is
forced with the buffer content `a` as the final field, and the result is
that parser transitioned to `END`. -/
theorem c7_parse_epilogue_witness :
    ∃ s2 b2, (CsvParser.mk States.IN_FIELD [] none 0).end_record ['a'] =
        .ok (s2, b2)
      ∧ s2.fields = (CsvParser.mk States.IN_FIELD [] none 0).fields ++
          [String.mk ['a']]
      ∧ CsvParser.mk States.END ["a"] (some 1) 0 =
          s2.transition States.END :=
  (c7_parse_epilogue "a".toList (CsvParser.mk States.END ["a"] (some 1) 0)
      rfl).2
    (CsvParser.mk States.IN_FIELD [] none 0) ['a'] rfl (by decide)
